import Mathlib

/-
Verification of the transaction-orchestration layer in `app.py`
(steem-idp-project/steem-api).

The layer talks to two remote backends; every remote call goes through
`_make_io_api_request`, which either returns parsed data or raises a
`requests` exception (Timeout, HTTPError with a status, or another
RequestException).  We embed the catalog/ledger backend as an explicit
state (`IOState`) and each remote call as a function that may fail either
because of an injected transport-level failure (`Option CallFail`
parameters, `none` = the call goes through) or because the backend data
makes it fail (e.g. GET of an absent resource yields HTTPError 404).

Each Flask handler becomes a pure function from the backend state and the
request data to (result, new backend state, trace of successful calls).
Python dynamic-typing behaviour that the handlers rely on is modelled
explicitly: `dict.get` of an absent key is an `Option`, `int(...)` on a
JSON value is `pyInt` (ValueError on a bad string, TypeError on `None`),
and `dict.get(k, 0)` is `Option.getD 0`.
-/

deriving instance DecidableEq for Except

namespace Steem

/-- Game record as stored by the catalog (IO) service.  `publisher` is
optional because `app.py` reads it with `game_data.get("publisher")` and
branches on `None`. -/
structure Game where
  gid : Nat
  name : String
  description : String
  price : Int
  publisher : Option Nat
  status : String
deriving DecidableEq

/-- The stored purchase timestamp as seen through
`datetime.strptime(purchase_data.get("date"), "%a, %d %b %Y %H:%M:%S GMT")`:
the field can be absent (`strptime(None, ...)` raises TypeError), present
but unparsable (ValueError), or parse to a UTC time, which we represent as
seconds. -/
inductive PDate
  | missing
  | unparsable (s : String)
  | parsed (t : Int)
deriving DecidableEq

/-- Purchase record of the catalog service.  `game_id` and `hours_played`
are optional because `app.py` reads them with `.get` (the latter with
default 0). -/
structure Purchase where
  pid : Nat
  user_id : Nat
  game_id : Option Nat
  date : PDate
  hours_played : Option Int
deriving DecidableEq

/-- Backend state of the catalog/ledger service.  A wallet entry is
`(owner uid, balance field if present)`: the balance key can be missing
from the JSON record, which `app.py` treats differently per call site. -/
structure IOState where
  games : List Game
  wallets : List (Nat × Option Int)
  purchases : List Purchase
  nextPid : Nat
deriving DecidableEq

/-- Transport-level failure of one `_make_io_api_request` call:
`requests.exceptions.Timeout`, `HTTPError` with a response status, or
another `RequestException`. -/
inductive CallFail
  | timeout
  | httpErr (status : Nat)
  | reqExc
deriving DecidableEq

/-- Which wallet write a `PUT /wallets/{uid}` trace event comes from. -/
inductive WSite
  | depositCredit
  | buyerDebit
  | pubCredit
  | buyerRefund
  | pubDebit
deriving DecidableEq

/-- Payload of a `PUT /games/{gid}` call (the `update_payload` dict /
the admin status dict). -/
structure GamePayload where
  name : Option String
  description : Option String
  price : Option Int
  status : Option String
deriving DecidableEq

/-- One successful remote call issued against the IO API. -/
inductive Ev
  | getGame (gid : Nat)
  | getPurchases (user_id game_id : Option Nat)
  | getPurchase (pid : Nat)
  | getWallet (uid : Nat)
  | putWallet (site : WSite) (uid : Nat) (balance : Int)
  | postPurchase (user_id game_id : Nat)
  | deletePurchase (pid : Nat)
  | putGame (gid : Nat) (payload : GamePayload)
  | deleteGame (gid : Nat)
deriving DecidableEq

/-- Whether a call mutates backend state. -/
def Ev.isWrite : Ev → Bool
  | .putWallet _ _ _ => true
  | .postPurchase _ _ => true
  | .deletePurchase _ => true
  | .putGame _ _ => true
  | .deleteGame _ => true
  | _ => false

-- Status-string constants of `app.py`.

def GAME_STATUS_PENDING : String := "pending"

def GAME_STATUS_APPROVED : String := "approved"

def GAME_STATUS_REJECTED : String := "rejected"

def RETURN_WINDOW_HOURS : Int := 48

def MAX_PLAYTIME_FOR_RETURN_HOURS : Int := 2

-- Python-side JSON value and `int(...)` conversion, for request bodies.

/-- Exceptions `int(...)` can raise. -/
inductive PyErr
  | valueError
  | typeError
deriving DecidableEq

/-- JSON value appearing in a request body field.  (JSON floats are not
modelled; no claim in scope depends on them.) -/
inductive JVal
  | jint (n : Int)
  | jstr (s : String)
  | jnull
deriving DecidableEq

/-- Whitespace characters stripped by Python `int(str)`. -/
def isPySpace (c : Char) : Bool :=
  c == ' ' || c == '\t' || c == '\n' || c == '\r'

/-- Strip surrounding whitespace from a character list. -/
def trimChars (cs : List Char) : List Char :=
  ((cs.dropWhile isPySpace).reverse.dropWhile isPySpace).reverse

/-- Digit characters to their number (no sign). -/
def digitsToNat (cs : List Char) : Nat :=
  cs.foldl (fun acc c => acc * 10 + (c.toNat - 48)) 0

/-- Python `int(s)` on a string: optional surrounding whitespace, optional
sign, then decimal digits; anything else raises ValueError. -/
def pyIntOfStr (s : String) : Option Int :=
  match trimChars s.data with
  | [] => none
  | c :: rest =>
    let core := if c == '-' || c == '+' then rest else c :: rest
    if core.length != 0 && core.all Char.isDigit then
      some (if c == '-' then -(digitsToNat core : Int) else (digitsToNat core : Int))
    else
      none

/-- Python `int(v)` on a JSON value: an int stays itself, a string is
parsed (ValueError on failure), `None` raises TypeError. -/
def pyInt : JVal → Except PyErr Int
  | .jint n => .ok n
  | .jstr s =>
    match pyIntOfStr s with
    | some n => .ok n
    | none => .error .valueError
  | .jnull => .error .typeError

-- Backend data lookups.

/-- `GET /games/{gid}` server-side lookup. -/
def findGame (st : IOState) (gid : Nat) : Option Game :=
  st.games.find? (fun g => g.gid == gid)

/-- Balance field of the wallet record of `uid`: `none` means the wallet
itself is absent (the GET would 404); `some none` means the record exists
but has no `balance` key. -/
def walletBalanceField (st : IOState) (uid : Nat) : Option (Option Int) :=
  (st.wallets.find? (fun w => w.1 == uid)).map Prod.snd

/-- `PUT /wallets/{uid}` applied to the backend state. -/
def putWalletState (st : IOState) (uid : Nat) (b : Int) : IOState :=
  { st with wallets := st.wallets.map (fun w => if w.1 == uid then (w.1, some b) else w) }

/-- `GET /purchases` with optional `user_id` / `game_id` query filters. -/
def purchasesQuery (st : IOState) (u g : Option Nat) : List Purchase :=
  st.purchases.filter (fun p =>
    (match u with
     | some x => p.user_id == x
     | none => true) &&
    (match g with
     | some y => p.game_id == some y
     | none => true))

/-- The purchases of `(uid, gid)` — the duplicate-ownership query. -/
def purchasesFor (st : IOState) (uid gid : Nat) : List Purchase :=
  purchasesQuery st (some uid) (some gid)

/-- `GET /purchases/{pid}` server-side lookup. -/
def findPurchase (st : IOState) (pid : Nat) : Option Purchase :=
  st.purchases.find? (fun p => p.pid == pid)

/-- `DELETE /purchases/{pid}` applied to the backend state. -/
def deletePurchaseState (st : IOState) (pid : Nat) : IOState :=
  { st with purchases := st.purchases.filter (fun p => p.pid != pid) }

/-- `POST /purchases` applied to the backend state: the service assigns a
fresh pid and fills in the server-side fields (date, hours played); the
orchestration layer only sends `user_id` and `game_id`. -/
def createPurchaseState (st : IOState) (uid gid : Nat) : Purchase × IOState :=
  let p : Purchase :=
    { pid := st.nextPid, user_id := uid, game_id := some gid,
      date := PDate.missing, hours_played := none }
  (p, { st with purchases := st.purchases ++ [p], nextPid := st.nextPid + 1 })

/-- Field-wise application of a `PUT /games/{gid}` payload to a record. -/
def applyGamePayload (g : Game) (pl : GamePayload) : Game :=
  { g with
    name := pl.name.getD g.name
    description := pl.description.getD g.description
    price := pl.price.getD g.price
    status := pl.status.getD g.status }

/-- `PUT /games/{gid}` applied to the backend state. -/
def putGameState (st : IOState) (gid : Nat) (pl : GamePayload) : IOState :=
  { st with games := st.games.map (fun g => if g.gid == gid then applyGamePayload g pl else g) }

/-- `DELETE /games/{gid}` applied to the backend state. -/
def deleteGameState (st : IOState) (gid : Nat) : IOState :=
  { st with games := st.games.filter (fun g => g.gid != gid) }

-- Remote calls: injected transport failure, else data-driven behaviour.

/-- `GET /games/{gid}`: transport failure, 404 if absent, else the game. -/
def getGameCall (fail : Option CallFail) (st : IOState) (gid : Nat) :
    Except CallFail Game :=
  match fail with
  | some f => .error f
  | none =>
    match findGame st gid with
    | none => .error (CallFail.httpErr 404)
    | some g => .ok g

/-- `GET /wallets/{uid}`: transport failure, 404 if the wallet is absent,
else its (possibly missing) balance field. -/
def getWalletCall (fail : Option CallFail) (st : IOState) (uid : Nat) :
    Except CallFail (Option Int) :=
  match fail with
  | some f => .error f
  | none =>
    match walletBalanceField st uid with
    | none => .error (CallFail.httpErr 404)
    | some wb => .ok wb

/-- `PUT /wallets/{uid}` with a new balance. -/
def putWalletCall (fail : Option CallFail) (st : IOState) (uid : Nat) (b : Int) :
    Except CallFail IOState :=
  match fail with
  | some f => .error f
  | none => .ok (putWalletState st uid b)

/-- `GET /purchases` with query filters. -/
def getPurchasesCall (fail : Option CallFail) (st : IOState) (u g : Option Nat) :
    Except CallFail (List Purchase) :=
  match fail with
  | some f => .error f
  | none => .ok (purchasesQuery st u g)

/-- `GET /purchases/{pid}`. -/
def getPurchaseCall (fail : Option CallFail) (st : IOState) (pid : Nat) :
    Except CallFail Purchase :=
  match fail with
  | some f => .error f
  | none =>
    match findPurchase st pid with
    | none => .error (CallFail.httpErr 404)
    | some p => .ok p

/-- `POST /purchases`. -/
def postPurchaseCall (fail : Option CallFail) (st : IOState) (uid gid : Nat) :
    Except CallFail (Purchase × IOState) :=
  match fail with
  | some f => .error f
  | none => .ok (createPurchaseState st uid gid)

/-- `DELETE /purchases/{pid}`. -/
def deletePurchaseCall (fail : Option CallFail) (st : IOState) (pid : Nat) :
    Except CallFail IOState :=
  match fail with
  | some f => .error f
  | none =>
    match findPurchase st pid with
    | none => .error (CallFail.httpErr 404)
    | some _ => .ok (deletePurchaseState st pid)

/-- `PUT /games/{gid}`. -/
def putGameCall (fail : Option CallFail) (st : IOState) (gid : Nat) (pl : GamePayload) :
    Except CallFail (Game × IOState) :=
  match fail with
  | some f => .error f
  | none =>
    match findGame st gid with
    | none => .error (CallFail.httpErr 404)
    | some g => .ok (applyGamePayload g pl, putGameState st gid pl)

/-- `DELETE /games/{gid}`. -/
def deleteGameCall (fail : Option CallFail) (st : IOState) (gid : Nat) :
    Except CallFail IOState :=
  match fail with
  | some f => .error f
  | none =>
    match findGame st gid with
    | none => .error (CallFail.httpErr 404)
    | some _ => .ok (deleteGameState st gid)

-- ------------------------------------------------------------------
-- Deposit workflow (`deposit_wallet`)
-- ------------------------------------------------------------------

/-- Outcome of `deposit_wallet`, one constructor per `return` site.
`uncaughtTypeError` is the path where `int(data["amount"])` raises
TypeError (e.g. a JSON `null` amount): only ValueError is caught there, so
the exception escapes the handler and Flask answers 500. -/
inductive DepResult
  | amountRequired
  | notPositive
  | invalidFormat
  | uncaughtTypeError
  | walletNotFound
  | upstreamErr (s : Nat)
  | connErr
  | ok (newBalance : Int)
deriving DecidableEq

/-- HTTP status of each `deposit_wallet` outcome. -/
def DepResult.status : DepResult → Nat
  | .amountRequired => 400
  | .notPositive => 400
  | .invalidFormat => 400
  | .uncaughtTypeError => 500
  | .walletNotFound => 500
  | .upstreamErr s => s
  | .connErr => 500
  | .ok _ => 200

/-- The exception handler of `deposit_wallet` for its wallet calls: an
HTTPError 404 is reported as a missing wallet (500); other HTTPErrors
propagate their status; Timeout and other RequestExceptions answer 500. -/
def depFail (f : CallFail) : DepResult :=
  match f with
  | .httpErr 404 => .walletNotFound
  | .httpErr s => .upstreamErr s
  | _ => .connErr

/-- `deposit_wallet` for an authenticated `uid`.  `amount` is the value of
the request body's `amount` key (`none`: body absent or key absent).
`wget`/`wput` inject transport failures into the wallet GET / PUT. -/
def deposit_wallet (wget wput : Option CallFail) (st : IOState) (uid : Nat)
    (amount : Option JVal) : DepResult × IOState × List Ev :=
  match amount with
  | none => (.amountRequired, st, [])
  | some v =>
    match pyInt v with
    | .error .typeError => (.uncaughtTypeError, st, [])
    | .error .valueError => (.invalidFormat, st, [])
    | .ok a =>
      if a ≤ 0 then (.notPositive, st, [])
      else
        match getWalletCall wget st uid with
        | .error f => (depFail f, st, [])
        | .ok wb =>
          let current_balance := wb.getD 0
          let new_balance := current_balance + a
          match putWalletCall wput st uid new_balance with
          | .error f => (depFail f, st, [Ev.getWallet uid])
          | .ok st2 =>
            (.ok new_balance, st2,
             [Ev.getWallet uid, Ev.putWallet .depositCredit uid new_balance])

-- ------------------------------------------------------------------
-- Purchase workflow (`purchase_game`)
-- ------------------------------------------------------------------

/-- Outcome of `purchase_game`. -/
inductive PResult
  | gameNotFound
  | notPurchasable
  | alreadyOwned
  | insufficientFunds
  | backendErr (s : Nat)
  | connErr
  | dataErr
  | purchased (p : Purchase)
deriving DecidableEq

/-- HTTP status of each `purchase_game` outcome. -/
def PResult.status : PResult → Nat
  | .gameNotFound => 404
  | .notPurchasable => 403
  | .alreadyOwned => 409
  | .insufficientFunds => 402
  | .backendErr s => s
  | .connErr => 500
  | .dataErr => 500
  | .purchased _ => 201

/-- The outer exception handler of `purchase_game` for the game GET: an
HTTPError 404 whose request URL is `/games/{gid}` answers 404; other
HTTPErrors propagate their status; Timeout and other RequestExceptions
answer 500. -/
def pFailGame (f : CallFail) : PResult :=
  match f with
  | .httpErr 404 => .gameNotFound
  | .httpErr s => .backendErr s
  | _ => .connErr

/-- The outer exception handler of `purchase_game` for the other calls
(whose URLs never contain `/games/{gid}`). -/
def pFail (f : CallFail) : PResult :=
  match f with
  | .httpErr s => .backendErr s
  | _ => .connErr

/-- Injected transport failures for the seven calls of `purchase_game`, in
program order. -/
structure PurchaseEnv where
  gameGet : Option CallFail
  dupGet : Option CallFail
  walletGet : Option CallFail
  purchasePost : Option CallFail
  debitPut : Option CallFail
  pubGet : Option CallFail
  pubPut : Option CallFail
deriving DecidableEq

/-- All calls succeed. -/
def okPEnv : PurchaseEnv := ⟨none, none, none, none, none, none, none⟩

/-- Steps 1–3 of `purchase_game`: fetch the game and check its status,
check for an existing purchase, fetch the buyer's wallet and check funds.
Returns the game and the buyer balance on success, plus the successful
calls made.  A missing wallet `balance` field makes
`int(wallet_data.get("balance"))` raise TypeError (caught as 500). -/
def purchaseChecks (gameGet dupGet walletGet : Option CallFail) (st : IOState)
    (user_uid gid : Nat) : Except PResult (Game × Int) × List Ev :=
  match getGameCall gameGet st gid with
  | .error f => (.error (pFailGame f), [])
  | .ok g =>
    if g.status != GAME_STATUS_APPROVED then
      (.error .notPurchasable, [Ev.getGame gid])
    else
      match getPurchasesCall dupGet st (some user_uid) (some gid) with
      | .error f => (.error (pFail f), [Ev.getGame gid])
      | .ok existing =>
        if !existing.isEmpty then
          (.error .alreadyOwned,
           [Ev.getGame gid, Ev.getPurchases (some user_uid) (some gid)])
        else
          match getWalletCall walletGet st user_uid with
          | .error f =>
            (.error (pFail f),
             [Ev.getGame gid, Ev.getPurchases (some user_uid) (some gid)])
          | .ok wb =>
            match wb with
            | none =>
              (.error .dataErr,
               [Ev.getGame gid, Ev.getPurchases (some user_uid) (some gid),
                Ev.getWallet user_uid])
            | some user_balance =>
              if user_balance < g.price then
                (.error .insufficientFunds,
                 [Ev.getGame gid, Ev.getPurchases (some user_uid) (some gid),
                  Ev.getWallet user_uid])
              else
                (.ok (g, user_balance),
                 [Ev.getGame gid, Ev.getPurchases (some user_uid) (some gid),
                  Ev.getWallet user_uid])

/-- Step 6 of `purchase_game`: best-effort publisher credit.  If the game
has no publisher the step is skipped (logged only).  Otherwise the
publisher wallet is read (a missing balance field counts as 0) and
`balance + price` is written back; every failure is caught inside the
step and swallowed, so this function never fails. -/
def creditPublisher (pubGet pubPut : Option CallFail) (st : IOState)
    (game_price : Int) (publisher_uid : Option Nat) : IOState × List Ev :=
  match publisher_uid with
  | none => (st, [])
  | some pu =>
    match getWalletCall pubGet st pu with
    | .error _ => (st, [])
    | .ok wb =>
      let publisher_current_balance := wb.getD 0
      let publisher_new_balance := publisher_current_balance + game_price
      match putWalletCall pubPut st pu publisher_new_balance with
      | .error _ => (st, [Ev.getWallet pu])
      | .ok st2 =>
        (st2, [Ev.getWallet pu, Ev.putWallet .pubCredit pu publisher_new_balance])

/-- `purchase_game` for authenticated buyer `user_uid` and game `gid`. -/
def purchase_game (env : PurchaseEnv) (st : IOState) (user_uid gid : Nat) :
    PResult × IOState × List Ev :=
  match purchaseChecks env.gameGet env.dupGet env.walletGet st user_uid gid with
  | (.error r, evs) => (r, st, evs)
  | (.ok (g, user_balance), evs) =>
    match postPurchaseCall env.purchasePost st user_uid gid with
    | .error f => (pFail f, st, evs)
    | .ok (created_purchase, st1) =>
      -- new_user_balance = user_balance - game_price
      match putWalletCall env.debitPut st1 user_uid (user_balance - g.price) with
      | .error f => (pFail f, st1, evs ++ [Ev.postPurchase user_uid gid])
      | .ok st2 =>
        (.purchased created_purchase,
         (creditPublisher env.pubGet env.pubPut st2 g.price g.publisher).1,
         evs ++ [Ev.postPurchase user_uid gid]
             ++ [Ev.putWallet .buyerDebit user_uid (user_balance - g.price)]
             ++ (creditPublisher env.pubGet env.pubPut st2 g.price g.publisher).2)

-- ------------------------------------------------------------------
-- Return workflow (`return_game`)
-- ------------------------------------------------------------------

/-- Outcome of `return_game`. -/
inductive RResult
  | purchaseNotFound
  | notYourPurchase
  | badDateFormat
  | windowExpired
  | playtimeExceeded
  | missingGameId
  | gameDataNotFound
  | backendErr (s : Nat)
  | connErr
  | dataErr
  | returned
deriving DecidableEq

/-- HTTP status of each `return_game` outcome. -/
def RResult.status : RResult → Nat
  | .purchaseNotFound => 404
  | .notYourPurchase => 403
  | .badDateFormat => 500
  | .windowExpired => 403
  | .playtimeExceeded => 403
  | .missingGameId => 500
  | .gameDataNotFound => 500
  | .backendErr s => s
  | .connErr => 500
  | .dataErr => 500
  | .returned => 200

/-- Exception handler of `return_game` for calls whose URL is
`/purchases/{pid}` (the purchase GET and the DELETE): an HTTPError 404
answers "purchase not found". -/
def rFailPurchase (f : CallFail) : RResult :=
  match f with
  | .httpErr 404 => .purchaseNotFound
  | .httpErr s => .backendErr s
  | _ => .connErr

/-- Exception handler of `return_game` for the game GET (URL
`/games/{game_id}`): a 404 is reported as missing associated game data. -/
def rFailGame (f : CallFail) : RResult :=
  match f with
  | .httpErr 404 => .gameDataNotFound
  | .httpErr s => .backendErr s
  | _ => .connErr

/-- Exception handler of `return_game` for the wallet calls. -/
def rFail (f : CallFail) : RResult :=
  match f with
  | .httpErr s => .backendErr s
  | _ => .connErr

/-- Injected transport failures for the calls of `return_game`, in program
order. -/
structure ReturnEnv where
  purchaseGet : Option CallFail
  gameGet : Option CallFail
  deleteCall : Option CallFail
  userWalletGet : Option CallFail
  refundPut : Option CallFail
  pubGet : Option CallFail
  pubPut : Option CallFail
deriving DecidableEq

/-- All calls succeed. -/
def okREnv : ReturnEnv := ⟨none, none, none, none, none, none, none⟩

/-- Steps 1–4a of `return_game`: fetch the purchase, ownership check, parse
the stored date, return-window check, playtime check (a missing
`hours_played` field defaults to 0), and presence of `game_id`.  Returns
the purchase and its game id, plus the successful calls made. -/
def returnChecks (pget : Option CallFail) (st : IOState) (now : Int)
    (user_uid pid : Nat) : Except RResult (Purchase × Nat) × List Ev :=
  match getPurchaseCall pget st pid with
  | .error f => (.error (rFailPurchase f), [])
  | .ok p =>
    if p.user_id != user_uid then (.error .notYourPurchase, [Ev.getPurchase pid])
    else
      match p.date with
      | .missing => (.error .badDateFormat, [Ev.getPurchase pid])
      | .unparsable _ => (.error .badDateFormat, [Ev.getPurchase pid])
      | .parsed t =>
        if now > t + RETURN_WINDOW_HOURS * 3600 then
          (.error .windowExpired, [Ev.getPurchase pid])
        else
          -- hours_played = int(purchase_data.get("hours_played", 0))
          if p.hours_played.getD 0 > MAX_PLAYTIME_FOR_RETURN_HOURS then
            (.error .playtimeExceeded, [Ev.getPurchase pid])
          else
            match p.game_id with
            | none => (.error .missingGameId, [Ev.getPurchase pid])
            | some gid => (.ok (p, gid), [Ev.getPurchase pid])

/-- Step 7 of `return_game`: best-effort publisher debit, `balance - price`
with no floor at zero; failures are caught inside the step and swallowed,
so this function never fails. -/
def debitPublisher (pubGet pubPut : Option CallFail) (st : IOState)
    (game_price : Int) (publisher_uid : Option Nat) : IOState × List Ev :=
  match publisher_uid with
  | none => (st, [])
  | some pu =>
    match getWalletCall pubGet st pu with
    | .error _ => (st, [])
    | .ok wb =>
      let publisher_current_balance := wb.getD 0
      let publisher_new_balance := publisher_current_balance - game_price
      match putWalletCall pubPut st pu publisher_new_balance with
      | .error _ => (st, [Ev.getWallet pu])
      | .ok st2 =>
        (st2, [Ev.getWallet pu, Ev.putWallet .pubDebit pu publisher_new_balance])

/-- `return_game` for authenticated requester `user_uid` and purchase
`pid`; `now` is the current UTC time in seconds. -/
def return_game (env : ReturnEnv) (st : IOState) (now : Int)
    (user_uid pid : Nat) : RResult × IOState × List Ev :=
  match returnChecks env.purchaseGet st now user_uid pid with
  | (.error r, evs) => (r, st, evs)
  | (.ok (_, game_id), evs) =>
    match getGameCall env.gameGet st game_id with
    | .error f => (rFailGame f, st, evs)
    | .ok g =>
      let evs1 := evs ++ [Ev.getGame game_id]
      let game_price := g.price
      match deletePurchaseCall env.deleteCall st pid with
      | .error f => (rFailPurchase f, st, evs1)
      | .ok st1 =>
        let evs2 := evs1 ++ [Ev.deletePurchase pid]
        match getWalletCall env.userWalletGet st1 user_uid with
        | .error f => (rFail f, st1, evs2)
        | .ok wb =>
          let evs3 := evs2 ++ [Ev.getWallet user_uid]
          match wb with
          | none => (.dataErr, st1, evs3)
          | some user_current_balance =>
            let user_new_balance := user_current_balance + game_price
            match putWalletCall env.refundPut st1 user_uid user_new_balance with
            | .error f => (rFail f, st1, evs3)
            | .ok st2 =>
              let evs4 := evs3 ++ [Ev.putWallet .buyerRefund user_uid user_new_balance]
              let debited := debitPublisher env.pubGet env.pubPut st2 game_price g.publisher
              (.returned, debited.1, evs4 ++ debited.2)

-- ------------------------------------------------------------------
-- Publisher game edit / delete, admin status change
-- ------------------------------------------------------------------

/-- Outcome of `update_published_game`. -/
inductive UResult
  | emptyBody
  | forbidden
  | negativePrice
  | invalidPriceFormat
  | dataErr
  | noValidFields
  | notFound
  | backendErr (s : Nat)
  | connErr
  | updated (g : Game)
deriving DecidableEq

/-- HTTP status of each `update_published_game` outcome. -/
def UResult.status : UResult → Nat
  | .emptyBody => 400
  | .forbidden => 403
  | .negativePrice => 400
  | .invalidPriceFormat => 400
  | .dataErr => 500
  | .noValidFields => 400
  | .notFound => 404
  | .backendErr s => s
  | .connErr => 500
  | .updated _ => 200

/-- JSON body of a game-update request: the three keys the handler reads,
plus whether any other key is present (which makes the body truthy). -/
structure UpdateBody where
  name : Option String
  description : Option String
  price : Option JVal
  otherKeys : Bool
deriving DecidableEq

/-- Python truthiness of the body dict (`if not data`). -/
def bodyTruthy (b : UpdateBody) : Bool :=
  b.name.isSome || b.description.isSome || b.price.isSome || b.otherKeys

/-- Validation of the body's `price` key: absent is fine; a string that
does not parse raises ValueError (caught: 400); `int(None)` raises
TypeError, caught only by the handler's outer catch-all (500); a negative
parse answers 400. -/
def priceField : Option JVal → Except UResult (Option Int)
  | none => .ok none
  | some v =>
    match pyInt v with
    | .error .valueError => .error .invalidPriceFormat
    | .error .typeError => .error .dataErr
    | .ok p => if p < 0 then .error .negativePrice else .ok (some p)

/-- The exception handler of `update_published_game` for its game calls:
404 answers "game not found"; other HTTPErrors propagate their status;
Timeout and other RequestExceptions answer 500. -/
def uFail (f : CallFail) : UResult :=
  match f with
  | .httpErr 404 => .notFound
  | .httpErr s => .backendErr s
  | _ => .connErr

/-- The `update_payload` dict sent by `update_published_game`: copied
name/description/price fields, plus the status key — set to `pending` when
the current status is `approved` or `rejected`, kept `pending` when it is
`pending`, and absent for any other current status. -/
def updatePayload (data : UpdateBody) (priceOpt : Option Int)
    (current_status : String) : GamePayload :=
  if current_status == GAME_STATUS_APPROVED || current_status == GAME_STATUS_REJECTED then
    { name := data.name, description := data.description, price := priceOpt,
      status := some GAME_STATUS_PENDING }
  else if current_status == GAME_STATUS_PENDING then
    { name := data.name, description := data.description, price := priceOpt,
      status := some GAME_STATUS_PENDING }
  else
    { name := data.name, description := data.description, price := priceOpt,
      status := none }

/-- `update_published_game` for authenticated publisher `publisher_uid`
and game `gid`. -/
def update_published_game (gget gput : Option CallFail) (st : IOState)
    (publisher_uid gid : Nat) (data : UpdateBody) : UResult × IOState × List Ev :=
  if !bodyTruthy data then (.emptyBody, st, [])
  else
    match getGameCall gget st gid with
    | .error f => (uFail f, st, [])
    | .ok g =>
      if g.publisher != some publisher_uid then (.forbidden, st, [Ev.getGame gid])
      else
        match priceField data.price with
        | .error r => (r, st, [Ev.getGame gid])
        | .ok priceOpt =>
          if data.name.isNone && data.description.isNone && priceOpt.isNone then
            (.noValidFields, st, [Ev.getGame gid])
          else
            match putGameCall gput st gid (updatePayload data priceOpt g.status) with
            | .error f => (uFail f, st, [Ev.getGame gid])
            | .ok (g2, st2) =>
              (.updated g2, st2,
               [Ev.getGame gid, Ev.putGame gid (updatePayload data priceOpt g.status)])

/-- Outcome of `delete_published_game`. -/
inductive DelResult
  | forbidden
  | notFound
  | backendErr (s : Nat)
  | connErr
  | deleted
deriving DecidableEq

/-- HTTP status of each `delete_published_game` outcome. -/
def DelResult.status : DelResult → Nat
  | .forbidden => 403
  | .notFound => 404
  | .backendErr s => s
  | .connErr => 500
  | .deleted => 200

/-- The exception handler of `delete_published_game` for its game calls. -/
def delFail (f : CallFail) : DelResult :=
  match f with
  | .httpErr 404 => .notFound
  | .httpErr s => .backendErr s
  | _ => .connErr

/-- `delete_published_game` for authenticated publisher `publisher_uid`
and game `gid`. -/
def delete_published_game (gget gdel : Option CallFail) (st : IOState)
    (publisher_uid gid : Nat) : DelResult × IOState × List Ev :=
  match getGameCall gget st gid with
  | .error f => (delFail f, st, [])
  | .ok g =>
    if g.publisher != some publisher_uid then (.forbidden, st, [Ev.getGame gid])
    else
      match deleteGameCall gdel st gid with
      | .error f => (delFail f, st, [Ev.getGame gid])
      | .ok st2 => (.deleted, st2, [Ev.getGame gid, Ev.deleteGame gid])

/-- Outcome of `_admin_change_game_status`. -/
inductive AdminResult
  | notFound
  | backendErr (s : Nat)
  | connErr
  | changed (g : Game)
deriving DecidableEq

/-- HTTP status of each `_admin_change_game_status` outcome. -/
def AdminResult.status : AdminResult → Nat
  | .notFound => 404
  | .backendErr s => s
  | .connErr => 500
  | .changed _ => 200

/-- The payload of an admin status change: just the status key. -/
def adminPayload (new_status : String) : GamePayload :=
  { name := none, description := none, price := none, status := some new_status }

/-- `_admin_change_game_status`: fetch the game (404 if absent), then PUT
`{"status": new_status}` unconditionally — no check of the prior status. -/
def adminFail (f : CallFail) : AdminResult :=
  match f with
  | .httpErr 404 => .notFound
  | .httpErr s => .backendErr s
  | _ => .connErr

def adminChangeGameStatus (gget gput : Option CallFail) (st : IOState)
    (gid : Nat) (new_status : String) : AdminResult × IOState × List Ev :=
  match getGameCall gget st gid with
  | .error f => (adminFail f, st, [])
  | .ok _ =>
    match putGameCall gput st gid (adminPayload new_status) with
    | .error f => (adminFail f, st, [Ev.getGame gid])
    | .ok (g2, st2) =>
      (.changed g2, st2, [Ev.getGame gid, Ev.putGame gid (adminPayload new_status)])

/-- `admin_approve_game`: status change to `approved`. -/
def admin_approve_game (gget gput : Option CallFail) (st : IOState) (gid : Nat) :
    AdminResult × IOState × List Ev :=
  adminChangeGameStatus gget gput st gid GAME_STATUS_APPROVED

/-- `admin_reject_game`: status change to `rejected`. -/
def admin_reject_game (gget gput : Option CallFail) (st : IOState) (gid : Nat) :
    AdminResult × IOState × List Ev :=
  adminChangeGameStatus gget gput st gid GAME_STATUS_REJECTED

/-- Status of game `gid` in a backend state, if the game exists. -/
def gameStatus (st : IOState) (gid : Nat) : Option String :=
  (findGame st gid).map Game.status

/-- All wallet balance fields present in the state are non-negative (a
missing field reads as 0 everywhere the code defaults it). -/
def nonnegWallets (st : IOState) : Prop :=
  ∀ w ∈ st.wallets, 0 ≤ w.2.getD 0

/-- All game prices in the state are non-negative (the data-model
invariant; this layer only ever writes non-negative prices). -/
def nonnegPrices (st : IOState) : Prop :=
  ∀ g ∈ st.games, 0 ≤ g.price

instance (st : IOState) : Decidable (nonnegWallets st) := by
  unfold nonnegWallets; infer_instance

instance (st : IOState) : Decidable (nonnegPrices st) := by
  unfold nonnegPrices; infer_instance

-- ------------------------------------------------------------------
-- Concrete backend states used to exercise the workflows
-- ------------------------------------------------------------------

/-- Buyer 7 with balance 600, publisher 9 with balance 0, one approved
game 3 priced 300 by publisher 9, no purchases yet. -/
def exA : IOState :=
  { games := [⟨3, "g", "", 300, some 9, "approved"⟩],
    wallets := [(7, some 600), (9, some 0)],
    purchases := [],
    nextPid := 1 }

/-- Buyer 7 owns purchase 1 of game 3 (bought at time 0, 0 hours played);
buyer balance 300, publisher balance 300. -/
def exR : IOState :=
  { games := [⟨3, "g", "", 300, some 9, "approved"⟩],
    wallets := [(7, some 300), (9, some 300)],
    purchases := [⟨1, 7, some 3, .parsed 0, some 0⟩],
    nextPid := 2 }

/-- Like `exR` but the game costs 100 and publisher 9 has balance 0: a
return debits publisher 9 below zero. -/
def exNeg : IOState :=
  { games := [⟨3, "g", "", 100, some 9, "approved"⟩],
    wallets := [(7, some 50), (9, some 0)],
    purchases := [⟨1, 7, some 3, .parsed 0, some 0⟩],
    nextPid := 2 }

/-- A single approved game, for the admin status-change transition. -/
def exApproved : IOState :=
  { games := [⟨3, "g", "", 300, some 9, "approved"⟩],
    wallets := [],
    purchases := [],
    nextPid := 1 }

/-- Wallet record of publisher 9 exists but has no balance field. -/
def exM : IOState :=
  { games := [],
    wallets := [(9, none)],
    purchases := [],
    nextPid := 1 }

/-- Purchase 1 of buyer 7 whose record lacks the hours_played field. -/
def exH : IOState :=
  { games := [⟨3, "g", "", 300, some 9, "approved"⟩],
    wallets := [(7, some 300), (9, some 300)],
    purchases := [⟨1, 7, some 3, .parsed 0, none⟩],
    nextPid := 2 }

/-- Buyer 7 already owns game 3 (duplicate-purchase scenario). -/
def exDup : IOState :=
  { games := [⟨3, "g", "", 300, some 9, "approved"⟩],
    wallets := [(7, some 600), (9, some 0)],
    purchases := [⟨1, 7, some 3, .parsed 0, some 0⟩],
    nextPid := 2 }

/-- Game 3 is still pending review (not-purchasable scenario). -/
def exPend : IOState :=
  { games := [⟨3, "g", "", 300, some 9, "pending"⟩],
    wallets := [(7, some 600), (9, some 0)],
    purchases := [],
    nextPid := 1 }

/-- Buyer 7 holds 100 against a price of 300 (insufficient funds). -/
def exPoor : IOState :=
  { games := [⟨3, "g", "", 300, some 9, "approved"⟩],
    wallets := [(7, some 100), (9, some 0)],
    purchases := [],
    nextPid := 1 }

-- ------------------------------------------------------------------
-- Helper lemmas
-- ------------------------------------------------------------------

theorem getWalletCall_ok {f : Option CallFail} {st : IOState} {uid : Nat}
    {wb : Option Int} (h : getWalletCall f st uid = .ok wb) :
    f = none ∧ walletBalanceField st uid = some wb := by
  cases f with
  | some f => simp [getWalletCall] at h
  | none =>
    refine ⟨rfl, ?_⟩
    unfold getWalletCall at h
    cases hb : walletBalanceField st uid with
    | none => rw [hb] at h; simp at h
    | some wb2 => rw [hb] at h; simp at h; rw [h]

theorem getGameCall_ok {f : Option CallFail} {st : IOState} {gid : Nat}
    {g : Game} (h : getGameCall f st gid = .ok g) :
    f = none ∧ findGame st gid = some g := by
  cases f with
  | some f => simp [getGameCall] at h
  | none =>
    refine ⟨rfl, ?_⟩
    unfold getGameCall at h
    cases hb : findGame st gid with
    | none => rw [hb] at h; simp at h
    | some g2 => rw [hb] at h; simp at h; rw [h]

theorem getPurchaseCall_ok {f : Option CallFail} {st : IOState} {pid : Nat}
    {p : Purchase} (h : getPurchaseCall f st pid = .ok p) :
    f = none ∧ findPurchase st pid = some p := by
  cases f with
  | some f => simp [getPurchaseCall] at h
  | none =>
    refine ⟨rfl, ?_⟩
    unfold getPurchaseCall at h
    cases hb : findPurchase st pid with
    | none => rw [hb] at h; simp at h
    | some p2 => rw [hb] at h; simp at h; rw [h]

theorem findGame_mem {st : IOState} {gid : Nat} {g : Game}
    (h : findGame st gid = some g) : g ∈ st.games :=
  List.mem_of_find?_eq_some h

theorem findGame_gid {st : IOState} {gid : Nat} {g : Game}
    (h : findGame st gid = some g) : g.gid = gid := by
  have := List.find?_some h
  simpa using this

theorem walletBalanceField_nonneg {st : IOState} {uid : Nat} {wb : Option Int}
    (hw : nonnegWallets st) (h : walletBalanceField st uid = some wb) :
    0 ≤ wb.getD 0 := by
  unfold walletBalanceField at h
  cases hf : st.wallets.find? (fun w => w.1 == uid) with
  | none => rw [hf] at h; simp at h
  | some w =>
    rw [hf] at h
    simp at h
    have hmem : w ∈ st.wallets := List.mem_of_find?_eq_some hf
    have := hw w hmem
    rwa [h] at this

theorem nonnegWallets_putWalletState {st : IOState} {uid : Nat} {b : Int}
    (hw : nonnegWallets st) (hb : 0 ≤ b) :
    nonnegWallets (putWalletState st uid b) := by
  intro w hwmem
  unfold putWalletState at hwmem
  simp only [List.mem_map] at hwmem
  obtain ⟨w0, hw0, hw0eq⟩ := hwmem
  by_cases hc : (w0.1 == uid) = true
  · rw [if_pos hc] at hw0eq
    rw [← hw0eq]
    simpa using hb
  · rw [if_neg hc] at hw0eq
    rw [← hw0eq]
    exact hw w0 hw0

/-- `nonnegWallets` depends only on the wallets component. -/
theorem nonnegWallets_of_wallets_eq {st st' : IOState}
    (h : st'.wallets = st.wallets) (hw : nonnegWallets st) : nonnegWallets st' := by
  intro w hwmem
  exact hw w (h ▸ hwmem)

theorem wallets_deletePurchaseState (st : IOState) (pid : Nat) :
    (deletePurchaseState st pid).wallets = st.wallets := rfl

theorem wallets_createPurchaseState (st : IOState) (uid gid : Nat) :
    (createPurchaseState st uid gid).2.wallets = st.wallets := rfl

theorem walletBalanceField_deletePurchaseState (st : IOState) (pid uid : Nat) :
    walletBalanceField (deletePurchaseState st pid) uid = walletBalanceField st uid := rfl

theorem findPurchase_deletePurchaseState_self (st : IOState) (pid : Nat) :
    findPurchase (deletePurchaseState st pid) pid = none := by
  unfold findPurchase deletePurchaseState
  apply List.find?_eq_none.mpr
  intro p hp
  simp only [List.mem_filter] at hp
  simpa using hp.2

theorem purchases_putWalletState (st : IOState) (uid : Nat) (b : Int) :
    (putWalletState st uid b).purchases = st.purchases := rfl

theorem putWalletCall_ok {f : Option CallFail} {st : IOState} {uid : Nat}
    {b : Int} {st2 : IOState} (h : putWalletCall f st uid b = .ok st2) :
    f = none ∧ st2 = putWalletState st uid b := by
  cases f with
  | some f => simp [putWalletCall] at h
  | none =>
    simp [putWalletCall] at h
    exact ⟨rfl, h.symm⟩

theorem purchases_creditPublisher (pg pp : Option CallFail) (st : IOState)
    (price : Int) (pub : Option Nat) :
    (creditPublisher pg pp st price pub).1.purchases = st.purchases := by
  cases pub with
  | none => rfl
  | some pu =>
    simp only [creditPublisher]
    cases hg : getWalletCall pg st pu with
    | error f => rfl
    | ok wb =>
      simp only
      cases hp : putWalletCall pp st pu (wb.getD 0 + price) with
      | error f => rfl
      | ok st2 =>
        simp only
        rw [(putWalletCall_ok hp).2]
        rfl

theorem getPurchasesCall_ok {f : Option CallFail} {st : IOState}
    {u g : Option Nat} {l : List Purchase}
    (h : getPurchasesCall f st u g = .ok l) :
    f = none ∧ l = purchasesQuery st u g := by
  cases f with
  | some f => simp [getPurchasesCall] at h
  | none =>
    simp [getPurchasesCall] at h
    exact ⟨rfl, h.symm⟩

theorem postPurchaseCall_ok {f : Option CallFail} {st : IOState} {uid gid : Nat}
    {p : Purchase} {st2 : IOState}
    (h : postPurchaseCall f st uid gid = .ok (p, st2)) :
    f = none ∧ p = (createPurchaseState st uid gid).1 ∧
      st2 = (createPurchaseState st uid gid).2 := by
  cases f with
  | some f => simp [postPurchaseCall] at h
  | none =>
    simp [postPurchaseCall] at h
    rw [Prod.ext_iff] at h
    exact ⟨rfl, h.1.symm, h.2.symm⟩

theorem deletePurchaseCall_ok {f : Option CallFail} {st : IOState} {pid : Nat}
    {st2 : IOState} (h : deletePurchaseCall f st pid = .ok st2) :
    f = none ∧ st2 = deletePurchaseState st pid := by
  cases f with
  | some f => simp [deletePurchaseCall] at h
  | none =>
    unfold deletePurchaseCall at h
    cases hp : findPurchase st pid with
    | none => rw [hp] at h; simp at h
    | some p => rw [hp] at h; simp at h; exact ⟨rfl, h.symm⟩

theorem putGameCall_ok {f : Option CallFail} {st : IOState} {gid : Nat}
    {pl : GamePayload} {g2 : Game} {st2 : IOState}
    (h : putGameCall f st gid pl = .ok (g2, st2)) :
    f = none ∧ st2 = putGameState st gid pl := by
  cases f with
  | some f => simp [putGameCall] at h
  | none =>
    unfold putGameCall at h
    cases hg : findGame st gid with
    | none => rw [hg] at h; simp at h
    | some g => rw [hg] at h; simp at h; exact ⟨rfl, h.2.symm⟩

/-- Inversion of a successful checks phase of `purchase_game`: every
fact established by steps 1–3. -/
theorem purchaseChecks_ok_inv {gg dg wg : Option CallFail} {st : IOState}
    {uid gid : Nat} {g : Game} {bal : Int} {evs : List Ev}
    (h : purchaseChecks gg dg wg st uid gid = (.ok (g, bal), evs)) :
    gg = none ∧ dg = none ∧ wg = none ∧
    findGame st gid = some g ∧ g.status = GAME_STATUS_APPROVED ∧
    purchasesFor st uid gid = [] ∧
    walletBalanceField st uid = some (some bal) ∧ g.price ≤ bal ∧
    evs = [Ev.getGame gid, Ev.getPurchases (some uid) (some gid), Ev.getWallet uid] := by
  unfold purchaseChecks at h
  split at h
  · simp at h
  next g0 hg =>
    split at h
    · simp at h
    next hstat =>
      split at h
      · simp at h
      next ex hd =>
        split at h
        · simp at h
        next hex =>
          split at h
          · simp at h
          next wb hw =>
            split at h
            · simp at h
            next b =>
              split at h
              · simp at h
              next hbal =>
                simp only [Prod.mk.injEq, Except.ok.injEq] at h
                obtain ⟨⟨hgg, hbb⟩, hevs⟩ := h
                obtain ⟨hgg0, hfind⟩ := getGameCall_ok hg
                obtain ⟨hdg0, hex0⟩ := getPurchasesCall_ok hd
                obtain ⟨hwg0, hwb0⟩ := getWalletCall_ok hw
                subst hgg hbb
                refine ⟨hgg0, hdg0, hwg0, hfind, ?_, ?_, hwb0, ?_, hevs.symm⟩
                · simpa using hstat
                · have hexnil : ex = [] := by simpa using hex
                  unfold purchasesFor
                  rw [← hex0, hexnil]
                · omega

/-- Inversion of a successful eligibility phase of `return_game`: every
fact established by steps 1–4a. -/
theorem returnChecks_ok_inv {pget : Option CallFail} {st : IOState}
    {now : Int} {uid pid : Nat} {p : Purchase} {gid : Nat} {evs : List Ev}
    (h : returnChecks pget st now uid pid = (.ok (p, gid), evs)) :
    pget = none ∧ findPurchase st pid = some p ∧ p.user_id = uid ∧
    (∃ t, p.date = .parsed t ∧ now ≤ t + RETURN_WINDOW_HOURS * 3600) ∧
    p.hours_played.getD 0 ≤ MAX_PLAYTIME_FOR_RETURN_HOURS ∧
    p.game_id = some gid ∧ evs = [Ev.getPurchase pid] := by
  unfold returnChecks at h
  split at h
  · simp at h
  next p0 hp0 =>
    split at h
    · simp at h
    next hown =>
      split at h
      · simp at h
      · simp at h
      next t hdate =>
        split at h
        · simp at h
        next hwin =>
          split at h
          · simp at h
          next hplay =>
            split at h
            · simp at h
            next gid0 hgid =>
              simp only [Prod.mk.injEq, Except.ok.injEq] at h
              obtain ⟨⟨hp1, hgid1⟩, hevs⟩ := h
              obtain ⟨hpget, hfind⟩ := getPurchaseCall_ok hp0
              subst hp1 hgid1
              refine ⟨hpget, hfind, ?_, ⟨t, hdate, ?_⟩, ?_, hgid, hevs.symm⟩
              · simpa using hown
              · omega
              · omega

theorem no_writes_of_all {l : List Ev} (h : l.all (fun e => !e.isWrite) = true) :
    ∀ e ∈ l, e.isWrite = false := by
  intro e he
  have := List.all_eq_true.mp h e he
  simpa using this

/-- The checks phase of `purchase_game` issues only reads. -/
theorem purchaseChecks_no_writes (gg dg wg : Option CallFail) (st : IOState)
    (uid gid : Nat) :
    ((purchaseChecks gg dg wg st uid gid).2).all (fun e => !e.isWrite) = true := by
  unfold purchaseChecks
  repeat' split
  all_goals rfl

/-- The eligibility phase of `return_game` issues only reads. -/
theorem returnChecks_no_writes (pget : Option CallFail) (st : IOState)
    (now : Int) (uid pid : Nat) :
    ((returnChecks pget st now uid pid).2).all (fun e => !e.isWrite) = true := by
  unfold returnChecks
  repeat' split
  all_goals rfl

/-- The only wallet write the best-effort publisher-credit step can issue
is `old-balance (missing field read as 0) + price` to the publisher. -/
theorem creditPublisher_putWallet_inv {pg pp : Option CallFail} {st : IOState}
    {price : Int} {pub : Option Nat} {site : WSite} {u : Nat} {b : Int}
    (h : Ev.putWallet site u b ∈ (creditPublisher pg pp st price pub).2) :
    site = .pubCredit ∧ ∃ wb, walletBalanceField st u = some wb ∧
      b = wb.getD 0 + price := by
  cases pub with
  | none => simp [creditPublisher] at h
  | some pu =>
    simp only [creditPublisher] at h
    split at h
    · simp at h
    next wb hg =>
      split at h
      · simp at h
      next st2 hput =>
        simp only [List.mem_cons, List.mem_singleton] at h
        rcases h with h | h | h
        · simp at h
        · obtain ⟨hs, hu, hb⟩ := Ev.putWallet.inj h
          subst hs hu hb
          exact ⟨rfl, wb, (getWalletCall_ok hg).2, rfl⟩
        · simp at h

/-- The only wallet write the best-effort publisher-debit step can issue
is `old-balance (missing field read as 0) - price` to the publisher. -/
theorem debitPublisher_putWallet_inv {pg pp : Option CallFail} {st : IOState}
    {price : Int} {pub : Option Nat} {site : WSite} {u : Nat} {b : Int}
    (h : Ev.putWallet site u b ∈ (debitPublisher pg pp st price pub).2) :
    site = .pubDebit ∧ ∃ wb, walletBalanceField st u = some wb ∧
      b = wb.getD 0 - price := by
  cases pub with
  | none => simp [debitPublisher] at h
  | some pu =>
    simp only [debitPublisher] at h
    split at h
    · simp at h
    next wb hg =>
      split at h
      · simp at h
      next st2 hput =>
        simp only [List.mem_cons, List.mem_singleton] at h
        rcases h with h | h | h
        · simp at h
        · obtain ⟨hs, hu, hb⟩ := Ev.putWallet.inj h
          subst hs hu hb
          exact ⟨rfl, wb, (getWalletCall_ok hg).2, rfl⟩
        · simp at h

theorem purchases_debitPublisher (pg pp : Option CallFail) (st : IOState)
    (price : Int) (pub : Option Nat) :
    (debitPublisher pg pp st price pub).1.purchases = st.purchases := by
  cases pub with
  | none => rfl
  | some pu =>
    simp only [debitPublisher]
    cases hg : getWalletCall pg st pu with
    | error f => rfl
    | ok wb =>
      simp only
      cases hp : putWalletCall pp st pu (wb.getD 0 - price) with
      | error f => rfl
      | ok st2 =>
        simp only
        rw [(putWalletCall_ok hp).2]
        rfl

theorem find?_map_gid_pres (f : Game → Game) (hf : ∀ g, (f g).gid = g.gid)
    (l : List Game) (gid2 : Nat) :
    (l.map f).find? (fun g => g.gid == gid2) =
      (l.find? (fun g => g.gid == gid2)).map f := by
  induction l with
  | nil => rfl
  | cons g l ih =>
    simp only [List.map_cons, List.find?]
    rw [hf g]
    cases hc : (g.gid == gid2) with
    | true => rfl
    | false => exact ih

theorem findGame_putGameState (st : IOState) (gid : Nat) (pl : GamePayload)
    (gid2 : Nat) :
    findGame (putGameState st gid pl) gid2 =
      (findGame st gid2).map
        (fun g => if g.gid == gid then applyGamePayload g pl else g) := by
  unfold findGame putGameState
  exact find?_map_gid_pres _
    (fun g => by by_cases h : (g.gid == gid) = true <;> simp [h, applyGamePayload])
    st.games gid2

theorem gameStatus_putGameState (st : IOState) (gid : Nat) (pl : GamePayload)
    (gid2 : Nat) :
    gameStatus (putGameState st gid pl) gid2 =
      (findGame st gid2).map
        (fun g => if g.gid == gid then pl.status.getD g.status else g.status) := by
  unfold gameStatus
  rw [findGame_putGameState]
  cases findGame st gid2 with
  | none => rfl
  | some g =>
    by_cases h : g.gid = gid <;> simp [h, applyGamePayload]

/-- The status key of any publisher-edit payload is absent or `pending`. -/
theorem updatePayload_status (data : UpdateBody) (po : Option Int) (s : String) :
    (updatePayload data po s).status = none ∨
    (updatePayload data po s).status = some GAME_STATUS_PENDING := by
  unfold updatePayload
  split
  · exact Or.inr rfl
  · split
    · exact Or.inr rfl
    · exact Or.inl rfl

/-- The state after a publisher game update: unchanged, or a game PUT
whose payload status key is absent or `pending`. -/
theorem update_state_shape (gget gput : Option CallFail) (st : IOState)
    (pub gid : Nat) (data : UpdateBody) :
    (update_published_game gget gput st pub gid data).2.1 = st ∨
    ∃ pl : GamePayload,
      (pl.status = none ∨ pl.status = some GAME_STATUS_PENDING) ∧
      (update_published_game gget gput st pub gid data).2.1 = putGameState st gid pl := by
  unfold update_published_game
  repeat' split
  all_goals try exact Or.inl rfl
  all_goals rename_i hput
  all_goals exact Or.inr ⟨_, updatePayload_status _ _ _, (putGameCall_ok hput).2⟩

/-- The state after an admin status change: unchanged, or a game PUT whose
payload is exactly the status key. -/
theorem admin_state_shape (gget gput : Option CallFail) (st : IOState)
    (gid : Nat) (ns : String) :
    (adminChangeGameStatus gget gput st gid ns).2.1 = st ∨
    (adminChangeGameStatus gget gput st gid ns).2.1 =
      putGameState st gid (adminPayload ns) := by
  unfold adminChangeGameStatus
  repeat' split
  all_goals try exact Or.inl rfl
  all_goals rename_i hput
  all_goals exact Or.inr (putGameCall_ok hput).2

theorem pFailGame_ne (f : CallFail) (q : Purchase) :
    pFailGame f ≠ PResult.purchased q := by
  unfold pFailGame; split <;> simp

theorem pFail_ne (f : CallFail) (q : Purchase) :
    pFail f ≠ PResult.purchased q := by
  unfold pFail; split <;> simp

theorem rFailPurchase_ne (f : CallFail) : rFailPurchase f ≠ RResult.returned := by
  unfold rFailPurchase; split <;> simp

theorem rFailGame_ne (f : CallFail) : rFailGame f ≠ RResult.returned := by
  unfold rFailGame; split <;> simp

theorem rFail_ne (f : CallFail) : rFail f ≠ RResult.returned := by
  unfold rFail; split <;> simp

/-- The checks phase of `purchase_game` never yields success as an error. -/
theorem purchaseChecks_error_ne {gg dg wg : Option CallFail} {st : IOState}
    {uid gid : Nat} {r : PResult} {evs : List Ev}
    (h : purchaseChecks gg dg wg st uid gid = (.error r, evs)) (q : Purchase) :
    r ≠ PResult.purchased q := by
  unfold purchaseChecks at h
  repeat' split at h
  all_goals first
    | (simp only [Prod.mk.injEq, Except.error.injEq] at h
       rw [← h.1]
       first
        | exact pFailGame_ne _ q
        | exact pFail_ne _ q
        | simp)
    | simp at h

/-- The eligibility phase of `return_game` never yields success as an
error. -/
theorem returnChecks_error_ne {pget : Option CallFail} {st : IOState}
    {now : Int} {uid pid : Nat} {r : RResult} {evs : List Ev}
    (h : returnChecks pget st now uid pid = (.error r, evs)) :
    r ≠ RResult.returned := by
  unfold returnChecks at h
  repeat' split at h
  all_goals first
    | (simp only [Prod.mk.injEq, Except.error.injEq] at h
       rw [← h.1]
       first
        | exact rFailPurchase_ne _
        | simp)
    | simp at h

theorem purchasesFor_eq (st : IOState) (uid gid : Nat) :
    purchasesFor st uid gid =
      st.purchases.filter (fun p => p.user_id == uid && p.game_id == some gid) := rfl

-- ------------------------------------------------------------------
-- Claim theorems
-- ------------------------------------------------------------------

/-- C8 counterexample: a JSON `null` amount is not integer input, yet the
deposit does not fail with a 400-class validation error — `int(None)`
raises a TypeError that `deposit_wallet` does not catch (only ValueError
is), so the request fails with a 500 and the wallet state is untouched. -/
theorem deposit_null_amount_escapes_validation :
    (deposit_wallet none none exA 7 (some JVal.jnull)).1.status = 500 ∧
    (deposit_wallet none none exA 7 (some JVal.jnull)).1.status ≠ 400 ∧
    (deposit_wallet none none exA 7 (some JVal.jnull)).2.1 = exA := by
  decide

/-- C8 (amended): a positive integer amount is added to the read balance
(missing balance field read as 0) and the updated wallet is returned with
200; an integer amount ≤ 0, a string amount that does not parse as an
integer, and a missing amount all fail with a 400 validation error before
any backend call; a JSON `null` amount instead raises an uncaught
TypeError, failing with a 500 rather than a 400. -/
theorem deposit_validation_and_update
    (wget wput : Option CallFail) (st : IOState) (uid : Nat)
    (a : Int) (wb : Option Int) (s : String)
    (hpos : 0 < a) (hw : walletBalanceField st uid = some wb)
    (hs : pyIntOfStr s = none) :
    deposit_wallet none none st uid (some (.jint a)) =
      (.ok (wb.getD 0 + a), putWalletState st uid (wb.getD 0 + a),
       [Ev.getWallet uid, Ev.putWallet .depositCredit uid (wb.getD 0 + a)]) ∧
    (∀ a2 : Int, a2 ≤ 0 →
      deposit_wallet wget wput st uid (some (.jint a2)) = (.notPositive, st, [])) ∧
    deposit_wallet wget wput st uid (some (.jstr s)) = (.invalidFormat, st, []) ∧
    deposit_wallet wget wput st uid none = (.amountRequired, st, []) ∧
    deposit_wallet wget wput st uid (some .jnull) = (.uncaughtTypeError, st, []) ∧
    DepResult.status .notPositive = 400 ∧ DepResult.status .invalidFormat = 400 ∧
    DepResult.status .amountRequired = 400 ∧
    DepResult.status .uncaughtTypeError = 500 ∧
    DepResult.status (.ok (wb.getD 0 + a)) = 200 := by
  refine ⟨?_, ?_, ?_, rfl, rfl, rfl, rfl, rfl, rfl, rfl⟩
  · simp [deposit_wallet, pyInt, getWalletCall, putWalletCall, hw, hpos.not_le]
  · intro a2 h2
    simp [deposit_wallet, pyInt, h2]
  · simp [deposit_wallet, pyInt, hs]

/-- Witness for C8 (amended): deposit of 500 into a wallet holding 600. -/
theorem deposit_validation_and_update_w :
    (deposit_wallet none none exA 7 (some (JVal.jint 500))).1 = DepResult.ok 1100 := by
  have h := deposit_validation_and_update none none exA 7 500 (some 600) "abc"
    (by decide) (by decide) (by decide)
  rw [h.1]
  decide

/-- C10: a return request whose purchase record lacks the hours_played
field reads it as 0, so the playtime check passes, and when the earlier
eligibility steps pass too the checks phase succeeds and the workflow
proceeds to the refund steps (game fetch, delete, refund). -/
theorem return_missing_hours_treated_as_zero
    (st : IOState) (now t : Int) (uid pid gid : Nat) (p : Purchase)
    (hp : findPurchase st pid = some p)
    (hown : p.user_id = uid)
    (hdate : p.date = .parsed t)
    (hwin : now ≤ t + RETURN_WINDOW_HOURS * 3600)
    (hhours : p.hours_played = none)
    (hgid : p.game_id = some gid) :
    p.hours_played.getD 0 = 0 ∧
    returnChecks none st now uid pid = (.ok (p, gid), [Ev.getPurchase pid]) := by
  refine ⟨by rw [hhours]; rfl, ?_⟩
  simp [returnChecks, getPurchaseCall, hp, hown, hdate, hhours, hgid,
    not_lt.mpr hwin, MAX_PLAYTIME_FOR_RETURN_HOURS]

/-- Witness for C10: purchase 1 of `exH` has no hours_played field and
its return passes the eligibility phase. -/
theorem return_missing_hours_treated_as_zero_w :
    (returnChecks none exH 3600 7 1).1 =
      .ok (⟨1, 7, some 3, .parsed 0, none⟩, 3) := by
  have h := return_missing_hours_treated_as_zero exH 3600 0 7 1 3
    ⟨1, 7, some 3, .parsed 0, none⟩ (by decide) rfl rfl (by decide) rfl rfl
  rw [h.2]

/-- C4 counterexample: admin reject on a currently approved game moves it
directly from approved to rejected — a transition the claim forbids. -/
theorem admin_reject_on_approved_game :
    gameStatus exApproved 3 = some GAME_STATUS_APPROVED ∧
    gameStatus (admin_reject_game none none exApproved 3).2.1 3 =
      some GAME_STATUS_REJECTED ∧
    GAME_STATUS_APPROVED ≠ GAME_STATUS_REJECTED := by
  decide

/-- C4 (amended): a publisher edit only ever leaves a game's status
unchanged or sets the edited game's status to pending (covering
approved→pending, rejected→pending and pending→pending); an admin status
change only ever leaves a status unchanged or sets the target game's
status to the requested value — unconditionally, from any prior status, so
approved→rejected and rejected→approved are possible through the admin
calls. -/
theorem game_status_transition_shape :
    (∀ gget gput st pub gid data gid2,
       gameStatus (update_published_game gget gput st pub gid data).2.1 gid2 =
         gameStatus st gid2 ∨
       (gid2 = gid ∧
        gameStatus (update_published_game gget gput st pub gid data).2.1 gid2 =
          some GAME_STATUS_PENDING)) ∧
    (∀ gget gput st gid ns gid2,
       gameStatus (adminChangeGameStatus gget gput st gid ns).2.1 gid2 =
         gameStatus st gid2 ∨
       (gid2 = gid ∧
        gameStatus (adminChangeGameStatus gget gput st gid ns).2.1 gid2 =
          some ns)) := by
  constructor
  · intro gget gput st pub gid data gid2
    rcases update_state_shape gget gput st pub gid data with h | ⟨pl, hpl, h⟩
    · rw [h]; exact Or.inl rfl
    · rw [h, gameStatus_putGameState]
      rcases hpl with hpl | hpl
      · left
        unfold gameStatus
        cases findGame st gid2 with
        | none => rfl
        | some g => simp [hpl]
      · cases hf : findGame st gid2 with
        | none => left; unfold gameStatus; rw [hf]; rfl
        | some g =>
          by_cases hg : g.gid = gid
          · right
            have hgid2 : g.gid = gid2 := findGame_gid hf
            refine ⟨by rw [← hgid2, hg], ?_⟩
            simp [hg, hpl]
          · left
            unfold gameStatus
            rw [hf]
            simp [hg]
  · intro gget gput st gid ns gid2
    rcases admin_state_shape gget gput st gid ns with h | h
    · rw [h]; exact Or.inl rfl
    · rw [h, gameStatus_putGameState]
      cases hf : findGame st gid2 with
      | none => left; unfold gameStatus; rw [hf]; rfl
      | some g =>
        by_cases hg : g.gid = gid
        · right
          have hgid2 : g.gid = gid2 := findGame_gid hf
          refine ⟨by rw [← hgid2, hg], ?_⟩
          simp [hg, adminPayload]
        · left
          unfold gameStatus
          rw [hf]
          simp [hg]

/-- C1 counterexample: a return run on `exNeg` (all balances and prices
non-negative) issues the publisher-debit wallet write with value -100: the
layer does issue a negative balance as the result of a single workflow
run, through the return workflow's publisher debit. -/
theorem return_issues_negative_publisher_balance :
    nonnegWallets exNeg ∧ nonnegPrices exNeg ∧
    Ev.putWallet .pubDebit 9 (-100) ∈ (return_game okREnv exNeg 3600 7 1).2.2 ∧
    ((-100 : Int) < 0) := by
  decide

/-- C1 (amended): when every wallet balance and game price in the backend
is non-negative, every wallet write issued by the deposit workflow and by
the purchase workflow (buyer debit and publisher credit), and every wallet
write of the return workflow other than its publisher debit (buyer
refund), is non-negative.  The return publisher debit writes
`balance - price` with no floor at zero and is the exception shown by the
counterexample. -/
theorem wallet_writes_nonneg (st : IOState)
    (hw : nonnegWallets st) (hp : nonnegPrices st) :
    (∀ wget wput uid amt site u b,
       Ev.putWallet site u b ∈ (deposit_wallet wget wput st uid amt).2.2 →
       0 ≤ b) ∧
    (∀ env uid gid site u b,
       Ev.putWallet site u b ∈ (purchase_game env st uid gid).2.2 →
       0 ≤ b) ∧
    (∀ env now uid pid site u b, site ≠ WSite.pubDebit →
       Ev.putWallet site u b ∈ (return_game env st now uid pid).2.2 →
       0 ≤ b) := by
  refine ⟨?_, ?_, ?_⟩
  · -- deposit
    intro wget wput uid amt site u b hmem
    rcases amt with _ | v
    · simp [deposit_wallet] at hmem
    · simp only [deposit_wallet] at hmem
      rcases hpv : pyInt v with e | a <;> simp only [hpv] at hmem
      · cases e <;> simp at hmem
      · by_cases ha : a ≤ 0
        · rw [if_pos ha] at hmem; simp at hmem
        · rw [if_neg ha] at hmem
          rcases hgw : getWalletCall wget st uid with f | wb <;>
            simp only [hgw] at hmem
          · simp at hmem
          · rcases hpw : putWalletCall wput st uid (wb.getD 0 + a) with f | st2 <;>
              simp only [hpw] at hmem
            · simp at hmem
            · simp only [List.mem_cons, List.not_mem_nil, or_false] at hmem
              rcases hmem with hmem | hmem
              · simp at hmem
              · obtain ⟨hs, hu, hb⟩ := Ev.putWallet.inj hmem
                subst hb
                have h1 := walletBalanceField_nonneg hw (getWalletCall_ok hgw).2
                omega
  · -- purchase
    intro env uid gid site u b hmem
    unfold purchase_game at hmem
    rcases hc : purchaseChecks env.gameGet env.dupGet env.walletGet st uid gid with
      ⟨r | ⟨g, bal⟩, evs⟩ <;> simp only [hc] at hmem
    · have hnw := purchaseChecks_no_writes env.gameGet env.dupGet env.walletGet st uid gid
      rw [hc] at hnw
      have := no_writes_of_all hnw _ hmem
      simp [Ev.isWrite] at this
    · have hnw := purchaseChecks_no_writes env.gameGet env.dupGet env.walletGet st uid gid
      rw [hc] at hnw
      obtain ⟨-, -, -, hfind, -, -, hwb, hple, -⟩ := purchaseChecks_ok_inv hc
      rcases hpost : postPurchaseCall env.purchasePost st uid gid with f | ⟨p1, st1⟩ <;>
        simp only [hpost] at hmem
      · have := no_writes_of_all hnw _ hmem
        simp [Ev.isWrite] at this
      · rcases hdeb : putWalletCall env.debitPut st1 uid (bal - g.price) with f | st2 <;>
          simp only [hdeb] at hmem
        · simp only [List.mem_append, List.mem_singleton] at hmem
          rcases hmem with hmem | hmem
          · have := no_writes_of_all hnw _ hmem
            simp [Ev.isWrite] at this
          · simp at hmem
        · simp only [List.append_assoc, List.mem_append, List.mem_cons,
            List.mem_singleton, List.not_mem_nil, or_false] at hmem
          rcases hmem with hmem | hmem | hmem | hmem
          · have := no_writes_of_all hnw _ hmem
            simp [Ev.isWrite] at this
          · simp at hmem
          · obtain ⟨hs, hu, hb⟩ := Ev.putWallet.inj hmem
            subst hb
            omega
          · obtain ⟨-, wb2, hwb2, hb⟩ := creditPublisher_putWallet_inv hmem
            subst hb
            have hst1w : st1.wallets = st.wallets := by
              rw [(postPurchaseCall_ok hpost).2.2]
              exact wallets_createPurchaseState st uid gid
            have hst2 := (putWalletCall_ok hdeb).2
            have hw2 : nonnegWallets st2 := by
              rw [hst2]
              exact nonnegWallets_putWalletState
                (nonnegWallets_of_wallets_eq hst1w hw) (by omega)
            have h1 := walletBalanceField_nonneg hw2 hwb2
            have hpr : 0 ≤ g.price := hp g (findGame_mem hfind)
            omega
  · -- return
    intro env now uid pid site u b hsite hmem
    unfold return_game at hmem
    rcases hc : returnChecks env.purchaseGet st now uid pid with
      ⟨r | ⟨p, gid⟩, evs⟩ <;> simp only [hc] at hmem
    · have hnw := returnChecks_no_writes env.purchaseGet st now uid pid
      rw [hc] at hnw
      have := no_writes_of_all hnw _ hmem
      simp [Ev.isWrite] at this
    · have hnw := returnChecks_no_writes env.purchaseGet st now uid pid
      rw [hc] at hnw
      rcases hgame : getGameCall env.gameGet st gid with f | g <;>
        simp only [hgame] at hmem
      · have := no_writes_of_all hnw _ hmem
        simp [Ev.isWrite] at this
      · rcases hdel : deletePurchaseCall env.deleteCall st pid with f | st1 <;>
          simp only [hdel] at hmem
        · simp only [List.mem_append, List.mem_singleton] at hmem
          rcases hmem with hmem | hmem
          · have := no_writes_of_all hnw _ hmem
            simp [Ev.isWrite] at this
          · simp at hmem
        · rcases hwg : getWalletCall env.userWalletGet st1 uid with f | wb <;>
            simp only [hwg] at hmem
          · simp only [List.append_assoc, List.mem_append, List.mem_cons,
              List.mem_singleton, List.not_mem_nil, or_false] at hmem
            rcases hmem with hmem | hmem | hmem
            · have := no_writes_of_all hnw _ hmem
              simp [Ev.isWrite] at this
            · simp at hmem
            · simp at hmem
          · cases wb with
            | none =>
              simp only [List.append_assoc, List.mem_append, List.mem_cons,
                List.mem_singleton, List.not_mem_nil, or_false] at hmem
              rcases hmem with hmem | hmem | hmem | hmem
              · have := no_writes_of_all hnw _ hmem
                simp [Ev.isWrite] at this
              · simp at hmem
              · simp at hmem
              · simp at hmem
            | some bal =>
              rcases hput : putWalletCall env.refundPut st1 uid (bal + g.price) with
                f | st2 <;> simp only [hput] at hmem
              · simp only [List.append_assoc, List.mem_append, List.mem_cons,
                  List.mem_singleton, List.not_mem_nil, or_false] at hmem
                rcases hmem with hmem | hmem | hmem | hmem
                · have := no_writes_of_all hnw _ hmem
                  simp [Ev.isWrite] at this
                · simp at hmem
                · simp at hmem
                · simp at hmem
              · simp only [List.append_assoc, List.mem_append, List.mem_cons,
                  List.mem_singleton, List.not_mem_nil, or_false] at hmem
                rcases hmem with hmem | hmem | hmem | hmem | hmem | hmem
                · have := no_writes_of_all hnw _ hmem
                  simp [Ev.isWrite] at this
                · simp at hmem
                · simp at hmem
                · simp at hmem
                · obtain ⟨hs, hu, hb⟩ := Ev.putWallet.inj hmem
                  subst hb
                  have hst1 := (deletePurchaseCall_ok hdel).2
                  have hbal : walletBalanceField st1 uid = some (some bal) :=
                    (getWalletCall_ok hwg).2
                  rw [hst1, walletBalanceField_deletePurchaseState] at hbal
                  have h1 := walletBalanceField_nonneg hw hbal
                  have hpr : 0 ≤ g.price := hp g (findGame_mem (getGameCall_ok hgame).2)
                  simp at h1
                  omega
                · obtain ⟨hs, -, -⟩ := debitPublisher_putWallet_inv hmem
                  exact absurd hs hsite

/-- Witness for C1 (amended): the buyer-refund write of a return on `exR`
is 600 ≥ 0, obtained from the theorem at the concrete state. -/
theorem wallet_writes_nonneg_w : (0 : Int) ≤ 600 := by
  have h := wallet_writes_nonneg exR (by decide) (by decide)
  exact h.2.2 okREnv 3600 7 1 WSite.buyerRefund 7 600 (by decide) (by decide)

/-- C2: a purchase answers 201 only when the fetched game is approved, no
purchase record for (buyer, game) exists, and the buyer's balance covers
the price; and on success the buyer-debit write is exactly
`balance - price` and exactly one purchase record for (buyer, game) exists
afterwards, the created one. -/
theorem purchase_success_inversion
    (env : PurchaseEnv) (st : IOState) (uid gid : Nat)
    (p : Purchase) (st' : IOState) (evs : List Ev)
    (h : purchase_game env st uid gid = (.purchased p, st', evs)) :
    ∃ g bal,
      findGame st gid = some g ∧ g.status = GAME_STATUS_APPROVED ∧
      purchasesFor st uid gid = [] ∧
      walletBalanceField st uid = some (some bal) ∧ g.price ≤ bal ∧
      p.user_id = uid ∧ p.game_id = some gid ∧
      purchasesFor st' uid gid = [p] ∧
      Ev.putWallet .buyerDebit uid (bal - g.price) ∈ evs ∧
      PResult.status (.purchased p) = 201 := by
  unfold purchase_game at h
  rcases hc : purchaseChecks env.gameGet env.dupGet env.walletGet st uid gid with
    ⟨r | ⟨g, bal⟩, evs0⟩ <;> simp only [hc] at h
  · simp only [Prod.mk.injEq] at h
    exact absurd h.1 (purchaseChecks_error_ne hc p)
  · obtain ⟨-, -, -, hfind, hstat, hdup, hwb, hple, hevs0⟩ := purchaseChecks_ok_inv hc
    rcases hpost : postPurchaseCall env.purchasePost st uid gid with f | ⟨p1, st1⟩ <;>
      simp only [hpost] at h
    · simp only [Prod.mk.injEq] at h
      exact absurd h.1 (pFail_ne f p)
    · rcases hdeb : putWalletCall env.debitPut st1 uid (bal - g.price) with f | st2 <;>
        simp only [hdeb] at h
      · simp only [Prod.mk.injEq] at h
        exact absurd h.1 (pFail_ne f p)
      · simp only [Prod.mk.injEq, PResult.purchased.injEq] at h
        obtain ⟨hpp, hst', hevs⟩ := h
        obtain ⟨-, hp1, hst1⟩ := postPurchaseCall_ok hpost
        have hpval : p = ⟨st.nextPid, uid, some gid, .missing, none⟩ := by
          rw [← hpp, hp1]; rfl
        refine ⟨g, bal, hfind, hstat, hdup, hwb, hple, ?_, ?_, ?_, ?_, rfl⟩
        · rw [hpval]
        · rw [hpval]
        · have hq : st'.purchases = st.purchases ++ [p] := by
            rw [← hst', purchases_creditPublisher, (putWalletCall_ok hdeb).2,
              purchases_putWalletState, hst1, ← hpp, hp1]
            rfl
          rw [purchasesFor_eq, hq, List.filter_append, ← purchasesFor_eq, hdup]
          simp [hpval, List.filter]
        · rw [← hevs]
          simp [List.mem_append]

/-- Witness for C2: the successful purchase of game 3 by buyer 7 on
`exA`. -/
theorem purchase_success_inversion_w : purchasesFor exA 7 3 = [] := by
  obtain ⟨g, bal, -, -, hdup, -⟩ := purchase_success_inversion okPEnv exA 7 3
    ⟨1, 7, some 3, PDate.missing, none⟩
    ⟨[⟨3, "g", "", 300, some 9, "approved"⟩], [(7, some 300), (9, some 300)],
     [⟨1, 7, some 3, PDate.missing, none⟩], 2⟩
    [Ev.getGame 3, Ev.getPurchases (some 7) (some 3), Ev.getWallet 7,
     Ev.postPurchase 7 3, Ev.putWallet .buyerDebit 7 300, Ev.getWallet 9,
     Ev.putWallet .pubCredit 9 300]
    (by decide)
  exact hdup

/-- C5: any failure during the checks phase of `purchase_game` — the game
fetch and status check, the duplicate check, or the wallet fetch and
funds check, whether data-driven or an injected transport failure of one
of those calls — aborts the purchase with that error, the backend state
unchanged, and only read calls issued (no wallet write, no purchase
creation).  In particular: a found duplicate answers Conflict (409), a
non-approved game NotPurchasable (403), and a balance below the price
InsufficientFunds (402), each with the state untouched. -/
theorem purchase_failures_no_side_effects
    (env : PurchaseEnv) (st : IOState) (uid gid : Nat) :
    (∀ r evs,
      purchaseChecks env.gameGet env.dupGet env.walletGet st uid gid =
        (.error r, evs) →
      purchase_game env st uid gid = (r, st, evs) ∧
      (∀ e ∈ evs, e.isWrite = false)) ∧
    (∀ g, env.gameGet = none → env.dupGet = none →
      findGame st gid = some g → g.status = GAME_STATUS_APPROVED →
      purchasesFor st uid gid ≠ [] →
      purchase_game env st uid gid =
        (.alreadyOwned, st,
         [Ev.getGame gid, Ev.getPurchases (some uid) (some gid)]) ∧
      PResult.status .alreadyOwned = 409) ∧
    (∀ g, env.gameGet = none → findGame st gid = some g →
      g.status ≠ GAME_STATUS_APPROVED →
      purchase_game env st uid gid = (.notPurchasable, st, [Ev.getGame gid]) ∧
      PResult.status .notPurchasable = 403) ∧
    (∀ g b, env.gameGet = none → env.dupGet = none → env.walletGet = none →
      findGame st gid = some g → g.status = GAME_STATUS_APPROVED →
      purchasesFor st uid gid = [] →
      walletBalanceField st uid = some (some b) → b < g.price →
      purchase_game env st uid gid =
        (.insufficientFunds, st,
         [Ev.getGame gid, Ev.getPurchases (some uid) (some gid),
          Ev.getWallet uid]) ∧
      PResult.status .insufficientFunds = 402) := by
  refine ⟨?_, ?_, ?_, ?_⟩
  · intro r evs hchk
    have hnw := purchaseChecks_no_writes env.gameGet env.dupGet env.walletGet st uid gid
    rw [hchk] at hnw
    refine ⟨?_, no_writes_of_all hnw⟩
    unfold purchase_game
    simp only [hchk]
  · intro g hgg hdg hfind hstat hdup
    have hchk : purchaseChecks env.gameGet env.dupGet env.walletGet st uid gid =
        (.error .alreadyOwned,
         [Ev.getGame gid, Ev.getPurchases (some uid) (some gid)]) := by
      rw [hgg, hdg]
      unfold purchaseChecks
      cases hq : purchasesQuery st (some uid) (some gid) with
      | nil => exact absurd hq hdup
      | cons a l => simp [getGameCall, getPurchasesCall, hfind, hstat, hq]
    refine ⟨?_, rfl⟩
    unfold purchase_game
    simp only [hchk]
  · intro g hgg hfind hne
    have hchk : purchaseChecks env.gameGet env.dupGet env.walletGet st uid gid =
        (.error .notPurchasable, [Ev.getGame gid]) := by
      rw [hgg]
      unfold purchaseChecks
      simp [getGameCall, hfind, bne_iff_ne.mpr hne]
    refine ⟨?_, rfl⟩
    unfold purchase_game
    simp only [hchk]
  · intro g b hgg hdg hwg hfind hstat hdup hwb hlt
    have hq0 : purchasesQuery st (some uid) (some gid) = [] := hdup
    have hchk : purchaseChecks env.gameGet env.dupGet env.walletGet st uid gid =
        (.error .insufficientFunds,
         [Ev.getGame gid, Ev.getPurchases (some uid) (some gid),
          Ev.getWallet uid]) := by
      rw [hgg, hdg, hwg]
      unfold purchaseChecks
      simp [getGameCall, getPurchasesCall, getWalletCall, hfind, hstat, hq0,
        hwb, hlt]
    refine ⟨?_, rfl⟩
    unfold purchase_game
    simp only [hchk]

/-- Witness for C5: on concrete states, a duplicate purchase answers
Conflict, a pending game NotPurchasable, an underfunded buyer
InsufficientFunds, and a timed-out game fetch aborts with the state
unchanged. -/
theorem purchase_failures_no_side_effects_w :
    (purchase_game okPEnv exDup 7 3).1 = PResult.alreadyOwned ∧
    (purchase_game okPEnv exPend 7 3).1 = PResult.notPurchasable ∧
    (purchase_game okPEnv exPoor 7 3).1 = PResult.insufficientFunds ∧
    (purchase_game ⟨some CallFail.timeout, none, none, none, none, none, none⟩
      exA 7 3).2.1 = exA := by
  refine ⟨?_, ?_, ?_, ?_⟩
  · have h := (purchase_failures_no_side_effects okPEnv exDup 7 3).2.1
      ⟨3, "g", "", 300, some 9, "approved"⟩ rfl rfl (by decide) rfl (by decide)
    rw [h.1]
  · have h := (purchase_failures_no_side_effects okPEnv exPend 7 3).2.2.1
      ⟨3, "g", "", 300, some 9, "pending"⟩ rfl (by decide) (by decide)
    rw [h.1]
  · have h := (purchase_failures_no_side_effects okPEnv exPoor 7 3).2.2.2
      ⟨3, "g", "", 300, some 9, "approved"⟩ 100 rfl rfl rfl (by decide) rfl
      (by decide) (by decide) (by decide)
    rw [h.1]
  · have h := (purchase_failures_no_side_effects
      ⟨some CallFail.timeout, none, none, none, none, none, none⟩ exA 7 3).1
      PResult.connErr [] (by decide)
    rw [h.1]

/-- C3: a return answers 200 only when the requester owns the purchase,
its timestamp parses, now is at most the purchase time plus 48 hours,
hours_played (0 when missing) is at most 2, and the game exists; on
success the purchase record is gone and the buyer-refund write is exactly
`balance + price`.  Outside the window the run answers ReturnWindowExpired
(403) and with hours_played > 2 it answers PlaytimeExceeded (403), in both
cases with the backend state unchanged (purchase record and all wallets
untouched) and only the purchase read issued. -/
theorem return_eligibility_and_refund
    (env : ReturnEnv) (st : IOState) (now : Int) (uid pid : Nat) :
    (∀ st' evs, return_game env st now uid pid = (.returned, st', evs) →
      ∃ p t gid g bal,
        findPurchase st pid = some p ∧ p.user_id = uid ∧
        p.date = .parsed t ∧ now ≤ t + RETURN_WINDOW_HOURS * 3600 ∧
        p.hours_played.getD 0 ≤ MAX_PLAYTIME_FOR_RETURN_HOURS ∧
        p.game_id = some gid ∧ findGame st gid = some g ∧
        findPurchase st' pid = none ∧
        walletBalanceField st uid = some (some bal) ∧
        Ev.putWallet .buyerRefund uid (bal + g.price) ∈ evs ∧
        RResult.status .returned = 200) ∧
    (∀ p t, env.purchaseGet = none → findPurchase st pid = some p →
      p.user_id = uid → p.date = .parsed t →
      now > t + RETURN_WINDOW_HOURS * 3600 →
      return_game env st now uid pid = (.windowExpired, st, [Ev.getPurchase pid]) ∧
      RResult.status .windowExpired = 403) ∧
    (∀ p t, env.purchaseGet = none → findPurchase st pid = some p →
      p.user_id = uid → p.date = .parsed t →
      now ≤ t + RETURN_WINDOW_HOURS * 3600 →
      p.hours_played.getD 0 > MAX_PLAYTIME_FOR_RETURN_HOURS →
      return_game env st now uid pid = (.playtimeExceeded, st, [Ev.getPurchase pid]) ∧
      RResult.status .playtimeExceeded = 403) := by
  refine ⟨?_, ?_, ?_⟩
  · intro st' evs h
    unfold return_game at h
    rcases hc : returnChecks env.purchaseGet st now uid pid with
      ⟨r | ⟨p, gid⟩, evs0⟩ <;> simp only [hc] at h
    · simp only [Prod.mk.injEq] at h
      exact absurd h.1 (returnChecks_error_ne hc)
    · obtain ⟨-, hfindP, hown, ⟨t, hdate, hwin⟩, hplay, hgid, hevs0⟩ :=
        returnChecks_ok_inv hc
      rcases hgame : getGameCall env.gameGet st gid with f | g <;>
        simp only [hgame] at h
      · simp only [Prod.mk.injEq] at h
        exact absurd h.1 (rFailGame_ne f)
      · rcases hdel : deletePurchaseCall env.deleteCall st pid with f | st1 <;>
          simp only [hdel] at h
        · simp only [Prod.mk.injEq] at h
          exact absurd h.1 (rFailPurchase_ne f)
        · rcases hwg : getWalletCall env.userWalletGet st1 uid with f | wb <;>
            simp only [hwg] at h
          · simp only [Prod.mk.injEq] at h
            exact absurd h.1 (rFail_ne f)
          · cases wb with
            | none => simp at h
            | some bal =>
              rcases hput : putWalletCall env.refundPut st1 uid (bal + g.price) with
                f | st2 <;> simp only [hput] at h
              · simp only [Prod.mk.injEq] at h
                exact absurd h.1 (rFail_ne f)
              · simp only [Prod.mk.injEq, and_true, true_and] at h
                obtain ⟨hst', hevs⟩ := h
                have hst1 := (deletePurchaseCall_ok hdel).2
                have hbal : walletBalanceField st uid = some (some bal) := by
                  have hb := (getWalletCall_ok hwg).2
                  rwa [hst1, walletBalanceField_deletePurchaseState] at hb
                refine ⟨p, t, gid, g, bal, hfindP, hown, hdate, hwin, hplay, hgid,
                  (getGameCall_ok hgame).2, ?_, hbal, ?_, rfl⟩
                · have hpe : st'.purchases = (deletePurchaseState st pid).purchases := by
                    rw [← hst', purchases_debitPublisher, (putWalletCall_ok hput).2,
                      purchases_putWalletState, hst1]
                  have : findPurchase st' pid =
                      findPurchase (deletePurchaseState st pid) pid := by
                    unfold findPurchase
                    rw [hpe]
                  rw [this, findPurchase_deletePurchaseState_self]
                · rw [← hevs]
                  simp [List.mem_append]
  · intro p t hpg hfindP hown hdate hwin
    have hchk : returnChecks env.purchaseGet st now uid pid =
        (.error .windowExpired, [Ev.getPurchase pid]) := by
      rw [hpg]
      unfold returnChecks
      simp [getPurchaseCall, hfindP, hown, hdate, hwin]
    unfold return_game
    rw [hchk]
    exact ⟨rfl, rfl⟩
  · intro p t hpg hfindP hown hdate hwin hplay
    have hchk : returnChecks env.purchaseGet st now uid pid =
        (.error .playtimeExceeded, [Ev.getPurchase pid]) := by
      rw [hpg]
      unfold returnChecks
      simp [getPurchaseCall, hfindP, hown, hdate, not_lt.mpr hwin, hplay]
    unfold return_game
    rw [hchk]
    exact ⟨rfl, rfl⟩

/-- Witness for C3: the successful return of purchase 1 on `exR` one hour
after purchase, and its rejection 49 hours after purchase. -/
theorem return_eligibility_and_refund_w :
    findPurchase ⟨[⟨3, "g", "", 300, some 9, "approved"⟩],
      [(7, some 600), (9, some 0)], [], 2⟩ 1 = none ∧
    (return_game okREnv exR (49 * 3600) 7 1).1 = RResult.windowExpired := by
  constructor
  · obtain ⟨p, t, gid, g, bal, -, -, -, -, -, -, -, hgone, -, -, -⟩ :=
      (return_eligibility_and_refund okREnv exR 3600 7 1).1
        ⟨[⟨3, "g", "", 300, some 9, "approved"⟩],
         [(7, some 600), (9, some 0)], [], 2⟩
        [Ev.getPurchase 1, Ev.getGame 3, Ev.deletePurchase 1, Ev.getWallet 7,
         Ev.putWallet .buyerRefund 7 600, Ev.getWallet 9,
         Ev.putWallet .pubDebit 9 0]
        (by decide)
    exact hgone
  · have h := (return_eligibility_and_refund okREnv exR (49 * 3600) 7 1).2.1
      ⟨1, 7, some 3, PDate.parsed 0, some 0⟩ 0 rfl (by decide) rfl rfl (by decide)
    rw [h.1]

/-- C7: the purchase response is independent of the outcome of the
publisher wallet read and write, so a purchase that has completed the
buyer debit stays a 201 under any publisher-step failure; a publisher
wallet record without a balance field is treated as balance 0, i.e. the
credit writes exactly `0 + price = price`; and when the game record
carries no publisher the credit step is skipped entirely — no calls and
no state change. -/
theorem publisher_credit_best_effort
    (gg dg wg ppost dput pg pp : Option CallFail) (st st2 st3 : IOState)
    (uid gid pu : Nat) (price price2 : Int)
    (hmiss : walletBalanceField st2 pu = some none) :
    (purchase_game ⟨gg, dg, wg, ppost, dput, pg, pp⟩ st uid gid).1 =
      (purchase_game ⟨gg, dg, wg, ppost, dput, none, none⟩ st uid gid).1 ∧
    creditPublisher none none st2 price (some pu) =
      (putWalletState st2 pu price,
       [Ev.getWallet pu, Ev.putWallet .pubCredit pu price]) ∧
    creditPublisher pg pp st3 price2 none = (st3, []) := by
  refine ⟨?_, ?_, rfl⟩
  · unfold purchase_game
    dsimp only
    repeat' split
    all_goals rfl
  · unfold creditPublisher
    simp [getWalletCall, hmiss, putWalletCall]

/-- Witness for C7: publisher 9's wallet in `exM` lacks the balance field;
the credit step writes exactly the price. -/
theorem publisher_credit_best_effort_w :
    creditPublisher none none exM 300 (some 9) =
      (putWalletState exM 9 300, [Ev.getWallet 9, Ev.putWallet .pubCredit 9 300]) := by
  have h := publisher_credit_best_effort none none none none none none none
    exA exM exA 7 3 9 300 300 (by decide)
  exact h.2.1

/-- C6: in every successful return run the trace has the fixed prefix
purchase-get, game-get, purchase-delete, wallet-get, buyer-refund-put
(followed only by the publisher-debit events), so the deletion is issued
strictly before the refund write; and when the refund put fails after the
deletion succeeded, the run does not answer 200, the purchase record stays
deleted in the final state, and no purchase creation call is ever issued
— the workflow never re-creates the purchase. -/
theorem return_delete_before_refund
    (env : ReturnEnv) (st : IOState) (now : Int) (uid pid : Nat) :
    (∀ st' evs, return_game env st now uid pid = (.returned, st', evs) →
      ∃ gid b rest,
        evs = [Ev.getPurchase pid, Ev.getGame gid, Ev.deletePurchase pid,
               Ev.getWallet uid, Ev.putWallet .buyerRefund uid b] ++ rest) ∧
    (∀ f, env.refundPut = some f →
      Ev.deletePurchase pid ∈ (return_game env st now uid pid).2.2 →
      (return_game env st now uid pid).1 ≠ .returned ∧
      findPurchase (return_game env st now uid pid).2.1 pid = none ∧
      (∀ u2 g2, Ev.postPurchase u2 g2 ∉ (return_game env st now uid pid).2.2)) := by
  constructor
  · intro st' evs h
    unfold return_game at h
    rcases hc : returnChecks env.purchaseGet st now uid pid with
      ⟨r | ⟨p, gid⟩, evs0⟩ <;> simp only [hc] at h
    · simp only [Prod.mk.injEq] at h
      exact absurd h.1 (returnChecks_error_ne hc)
    · obtain ⟨-, -, -, -, -, -, hevs0⟩ := returnChecks_ok_inv hc
      rcases hgame : getGameCall env.gameGet st gid with f | g <;>
        simp only [hgame] at h
      · simp only [Prod.mk.injEq] at h
        exact absurd h.1 (rFailGame_ne f)
      · rcases hdel : deletePurchaseCall env.deleteCall st pid with f | st1 <;>
          simp only [hdel] at h
        · simp only [Prod.mk.injEq] at h
          exact absurd h.1 (rFailPurchase_ne f)
        · rcases hwg : getWalletCall env.userWalletGet st1 uid with f | wb <;>
            simp only [hwg] at h
          · simp only [Prod.mk.injEq] at h
            exact absurd h.1 (rFail_ne f)
          · cases wb with
            | none => simp at h
            | some bal =>
              rcases hput : putWalletCall env.refundPut st1 uid (bal + g.price) with
                f | st2 <;> simp only [hput] at h
              · simp only [Prod.mk.injEq] at h
                exact absurd h.1 (rFail_ne f)
              · simp only [Prod.mk.injEq, and_true, true_and] at h
                refine ⟨gid, bal + g.price,
                  (debitPublisher env.pubGet env.pubPut st2 g.price g.publisher).2, ?_⟩
                rw [← h.2, hevs0]
                simp
  · intro f hf hdelmem
    have hnw := returnChecks_no_writes env.purchaseGet st now uid pid
    unfold return_game at hdelmem ⊢
    rcases hc : returnChecks env.purchaseGet st now uid pid with
      ⟨r | ⟨p, gid⟩, evs0⟩ <;> simp only [hc] at hdelmem ⊢ <;> rw [hc] at hnw
    · have := no_writes_of_all hnw _ hdelmem
      simp [Ev.isWrite] at this
    · obtain ⟨-, -, -, -, -, -, hevs0⟩ := returnChecks_ok_inv hc
      rcases hgame : getGameCall env.gameGet st gid with f2 | g <;>
        simp only [hgame] at hdelmem ⊢
      · have := no_writes_of_all hnw _ hdelmem
        simp [Ev.isWrite] at this
      · rcases hdel : deletePurchaseCall env.deleteCall st pid with f2 | st1 <;>
          simp only [hdel] at hdelmem ⊢
        · rw [hevs0] at hdelmem
          simp at hdelmem
        · have hgone : findPurchase st1 pid = none := by
            rw [(deletePurchaseCall_ok hdel).2]
            exact findPurchase_deletePurchaseState_self st pid
          rcases hwg : getWalletCall env.userWalletGet st1 uid with f2 | wb <;>
            simp only [hwg] at hdelmem ⊢
          · refine ⟨rFail_ne f2, hgone, ?_⟩
            intro u2 g2 hpm
            rw [hevs0] at hpm
            simp at hpm
          · cases wb with
            | none =>
              dsimp only
              refine ⟨by decide, hgone, ?_⟩
              intro u2 g2 hpm
              rw [hevs0] at hpm
              simp at hpm
            | some bal =>
              rcases hput : putWalletCall env.refundPut st1 uid (bal + g.price) with
                f2 | st2 <;> simp only [hput] at hdelmem ⊢
              · refine ⟨rFail_ne f2, hgone, ?_⟩
                intro u2 g2 hpm
                rw [hevs0] at hpm
                simp at hpm
              · exact absurd (putWalletCall_ok hput).1 (by rw [hf]; simp)

/-- Witness for C6: a return on `exR` whose refund put times out ends in
an error with the purchase already deleted. -/
theorem return_delete_before_refund_w :
    (return_game ⟨none, none, none, none, some CallFail.timeout, none, none⟩
      exR 3600 7 1).1 ≠ RResult.returned := by
  have h := (return_delete_before_refund
    ⟨none, none, none, none, some CallFail.timeout, none, none⟩
    exR 3600 7 1).2 CallFail.timeout rfl (by decide)
  exact h.1

/-- C9: an owned-game edit with at least one updatable field (and a valid,
non-negative price when one is supplied) whose current status is approved,
rejected, or pending leaves the game with status pending — in particular
approved and rejected games are reset to pending and pending games stay
pending; and a non-owning publisher's edit or delete answers Forbidden
(403) with the backend state unchanged and only the game read issued. -/
theorem publisher_edit_ownership
    (gput gdel : Option CallFail) (st : IOState) (pub gid : Nat)
    (data : UpdateBody) (g : Game) (po : Option Int)
    (hfind : findGame st gid = some g)
    (hpo : priceField data.price = .ok po)
    (hfields : data.name.isSome ∨ data.description.isSome ∨ po.isSome)
    (hstat : g.status = GAME_STATUS_APPROVED ∨ g.status = GAME_STATUS_REJECTED ∨
      g.status = GAME_STATUS_PENDING) :
    (g.publisher = some pub →
      gameStatus (update_published_game none none st pub gid data).2.1 gid =
        some GAME_STATUS_PENDING) ∧
    (g.publisher ≠ some pub →
      update_published_game none gput st pub gid data =
        (.forbidden, st, [Ev.getGame gid]) ∧
      delete_published_game none gdel st pub gid =
        (.forbidden, st, [Ev.getGame gid]) ∧
      UResult.status .forbidden = 403 ∧ DelResult.status .forbidden = 403) := by
  have htruthy : bodyTruthy data = true := by
    rcases hfields with h | h | h
    · simp [bodyTruthy, h]
    · simp [bodyTruthy, h]
    · rcases hpv : data.price with _ | v
      · rw [hpv] at hpo
        simp [priceField] at hpo
        rw [← hpo] at h
        simp at h
      · simp [bodyTruthy, hpv]
  constructor
  · intro hown
    have hnofields :
        (data.name.isNone && data.description.isNone && po.isNone) = false := by
      rcases hfields with h | h | h <;>
        obtain ⟨v, hv⟩ := Option.isSome_iff_exists.mp h <;> simp [hv]
    have hput : putGameCall none st gid (updatePayload data po g.status) =
        .ok (applyGamePayload g (updatePayload data po g.status),
             putGameState st gid (updatePayload data po g.status)) := by
      simp [putGameCall, hfind]
    unfold update_published_game
    simp only [htruthy, Bool.not_true, Bool.false_eq_true, if_false,
      getGameCall, hfind, hown, bne_self_eq_false, hpo, hnofields, hput]
    have hpl : (updatePayload data po g.status).status = some GAME_STATUS_PENDING := by
      rcases hstat with h | h | h <;> rw [h] <;> rfl
    rw [gameStatus_putGameState, hfind]
    have hgg : g.gid = gid := findGame_gid hfind
    simp [hgg, hpl]
  · intro hne
    have hb : (g.publisher != some pub) = true := bne_iff_ne.mpr hne
    constructor
    · unfold update_published_game
      simp [htruthy, getGameCall, hfind, hb]
    · refine ⟨?_, rfl, rfl⟩
      unfold delete_published_game
      simp [getGameCall, hfind, hb]

/-- Witness for C9: publisher 9 renames its approved game 3 on `exA`,
resetting the status to pending; publisher 8's identical edit and delete
answer Forbidden. -/
theorem publisher_edit_ownership_w :
    gameStatus (update_published_game none none exA 9 3
      ⟨some "n", none, none, false⟩).2.1 3 = some GAME_STATUS_PENDING ∧
    (update_published_game none none exA 8 3 ⟨some "n", none, none, false⟩).1 =
      UResult.forbidden := by
  constructor
  · exact (publisher_edit_ownership none none exA 9 3 ⟨some "n", none, none, false⟩
      ⟨3, "g", "", 300, some 9, "approved"⟩ none (by decide) rfl (by simp)
      (Or.inl rfl)).1 rfl
  · have h := (publisher_edit_ownership none none exA 8 3 ⟨some "n", none, none, false⟩
      ⟨3, "g", "", 300, some 9, "approved"⟩ none (by decide) rfl (by simp)
      (Or.inl rfl)).2 (by decide)
    rw [h.1]

end Steem
